import Mathlib

/-!
Verification of the client-side financial aggregation and reporting pipeline
of a personal-finance web application.

The development shallowly embeds the relevant program functions:
the monthly/category/global aggregations and the CSV serializer of the
reports page, the dashboard statistics, the rule-based assistant responder
with its financial-context snapshot, and the transaction-form type switch.

Modelling conventions:
 - decimal currency amounts are rationals;
 - a transaction's date enters the monthly aggregation only through its
   calendar month, so report transactions carry an absolute month index
   (year * 12 + month-of-year); the month label rendered by the original
   code is modelled by an injective label function over that index;
 - the assistant's random tip choice is an explicit index parameter;
 - the remote store is passed in as the list of rows its query returns.
-/

/-- Character for a single decimal digit. -/
def digitChar (d : ℕ) : Char := Char.ofNat (48 + d)

/-- Inverse of digitChar on decimal digits. -/
def undigit (c : Char) : ℕ := c.toNat - 48

theorem undigit_digitChar {d : ℕ} (hd : d < 10) : undigit (digitChar d) = d := by
  interval_cases d <;> decide

/-- Decimal rendering of a natural number; 0 renders as the empty digit list. -/
def natToString (n : ℕ) : String := String.mk ((Nat.digits 10 n).reverse.map digitChar)

theorem map_undigit_digitChar :
    ∀ l : List ℕ, (∀ d ∈ l, d < 10) → (l.map digitChar).map undigit = l := by
  intro l
  induction l with
  | nil => intro _; rfl
  | cons d rest ih =>
    intro h
    simp only [List.map_cons, List.cons.injEq]
    constructor
    · exact undigit_digitChar (h d (List.mem_cons_self d rest))
    · exact ih fun x hx => h x (List.mem_cons_of_mem d hx)

theorem natToString_inj {a b : ℕ} (h : natToString a = natToString b) : a = b := by
  have hdata : ((Nat.digits 10 a).reverse.map digitChar) =
      ((Nat.digits 10 b).reverse.map digitChar) := congrArg String.data h
  have ha : ∀ d ∈ (Nat.digits 10 a).reverse, d < 10 := by
    intro d hd
    exact Nat.digits_lt_base (by norm_num) (List.mem_reverse.mp hd)
  have hb : ∀ d ∈ (Nat.digits 10 b).reverse, d < 10 := by
    intro d hd
    exact Nat.digits_lt_base (by norm_num) (List.mem_reverse.mp hd)
  have hrev : (Nat.digits 10 a).reverse = (Nat.digits 10 b).reverse := by
    have := congrArg (List.map undigit) hdata
    rwa [map_undigit_digitChar _ ha, map_undigit_digitChar _ hb] at this
  have hdig : Nat.digits 10 a = Nat.digits 10 b := by
    have := congrArg List.reverse hrev
    simpa using this
  calc a = Nat.ofDigits 10 (Nat.digits 10 a) := (Nat.ofDigits_digits 10 a).symm
    _ = Nat.ofDigits 10 (Nat.digits 10 b) := by rw [hdig]
    _ = b := Nat.ofDigits_digits 10 b

/-- Decimal rendering used for display: 0 renders as "0". -/
def natDisplay (n : ℕ) : String := if n = 0 then "0" else natToString n

/-- Short month name of a month-of-year index (0 = Jan .. 11 = Dec). -/
def monthNameAux : ℕ → String
  | 0 => "Jan"
  | 1 => "Feb"
  | 2 => "Mar"
  | 3 => "Apr"
  | 4 => "May"
  | 5 => "Jun"
  | 6 => "Jul"
  | 7 => "Aug"
  | 8 => "Sep"
  | 9 => "Oct"
  | 10 => "Nov"
  | _ => "Dec"

theorem monthNameAux_inj :
    ∀ a b : ℕ, a < 12 → b < 12 → monthNameAux a = monthNameAux b → a = b := by
  intro a b ha hb
  interval_cases a <;> interval_cases b <;> decide

theorem monthNameAux_len : ∀ r : ℕ, r < 12 → (monthNameAux r).data.length = 3 := by
  intro r hr
  interval_cases r <;> decide

/-- Short month name of an absolute month index. -/
def monthName (m : ℕ) : String := monthNameAux (m % 12)

/-- Label of an absolute month index, as 'MMM yyyy' in the original code. -/
def monthLabel (m : ℕ) : String := monthName m ++ " " ++ natToString (m / 12)

theorem string_data_append (s t : String) : (s ++ t).data = s.data ++ t.data := rfl

theorem string_eq_of_data {s t : String} (h : s.data = t.data) : s = t := by
  cases s
  cases t
  exact congrArg String.mk h

theorem monthLabel_inj {m1 m2 : ℕ} (h : monthLabel m1 = monthLabel m2) : m1 = m2 := by
  have hdata : (monthName m1).data ++ (' ' :: (natToString (m1 / 12)).data) =
      (monthName m2).data ++ (' ' :: (natToString (m2 / 12)).data) := by
    have h' := congrArg String.data h
    simpa [monthLabel, string_data_append] using h'
  have hlen : (monthName m1).data.length = (monthName m2).data.length := by
    rw [monthName, monthName, monthNameAux_len _ (Nat.mod_lt _ (by norm_num)),
      monthNameAux_len _ (Nat.mod_lt _ (by norm_num))]
  obtain ⟨hname, htail⟩ := List.append_inj hdata hlen
  have hmod : m1 % 12 = m2 % 12 := by
    refine monthNameAux_inj _ _ (Nat.mod_lt _ (by norm_num)) (Nat.mod_lt _ (by norm_num)) ?h
    exact string_eq_of_data hname
  have hdiv : m1 / 12 = m2 / 12 := by
    have htl : (natToString (m1 / 12)).data = (natToString (m2 / 12)).data := by
      simpa using htail
    exact natToString_inj (string_eq_of_data htl)
  omega

/-- Structurally recursive infix test on character lists. -/
def isInfixB (needle : List Char) : List Char → Bool
  | [] => needle.isEmpty
  | h :: t => needle.isPrefixOf (h :: t) || isInfixB needle t

theorem isInfixB_iff (n : List Char) : ∀ h : List Char, isInfixB n h = true ↔ n <:+: h := by
  intro h
  induction h with
  | nil => simp [isInfixB, List.infix_nil, List.isEmpty_iff]
  | cons a t ih =>
    simp [isInfixB, List.isPrefixOf_iff_prefix, ih, List.infix_cons_iff]

/-- JavaScript-style substring containment (String.includes). -/
def jsIncludes (s sub : String) : Bool := isInfixB sub.data s.data

theorem jsIncludes_append (pre mid post : String) :
    jsIncludes (pre ++ mid ++ post) mid = true := by
  rw [jsIncludes, isInfixB_iff]
  exact ⟨pre.data, post.data, by simp [string_data_append]⟩

/-- Lower-casing, character by character (String.toLowerCase). -/
def jsToLower (s : String) : String := String.mk (s.data.map Char.toLower)

/-- JavaScript-style string defaulting (s or fallback): falsy = empty string. -/
def jsOr (s fallback : String) : String := if s = "" then fallback else s

/-- Group little-endian digit characters in threes, inserting the pt-BR
thousands separator between groups. -/
def groupLE : List Char → List Char
  | a :: b :: c :: d :: rest => a :: b :: c :: '.' :: groupLE (d :: rest)
  | l => l

/-- Decimal digits of a natural number, little-endian, as characters;
0 becomes the single digit '0'. -/
def digitsLE (n : ℕ) : List Char :=
  if n = 0 then ['0'] else (Nat.digits 10 n).map digitChar

/-- Model of `toLocaleString('pt-BR', ... minimumFractionDigits: 2)`:
grouped integer part, comma decimal separator, two fraction digits
(rounded to the nearest cent). -/
def formatBRL (q : ℚ) : String :=
  let cents : ℕ := (⌊|q| * 100 + 1 / 2⌋).toNat
  let ip := cents / 100
  let fr := cents % 100
  (if q < 0 then "-" else "") ++
    String.mk (groupLE (digitsLE ip)).reverse ++
    "," ++ String.mk [digitChar (fr / 10), digitChar (fr % 10)]

/-- Model of JavaScript `toFixed(1)`. -/
def toFixed1 (q : ℚ) : String :=
  let tenths : ℕ := (⌊|q| * 10 + 1 / 2⌋).toNat
  (if q < 0 ∧ tenths ≠ 0 then "-" else "") ++
    natDisplay (tenths / 10) ++ "." ++ String.mk [digitChar (tenths % 10)]

/-- Decimal rendering of an integer. -/
def intToString (z : ℤ) : String :=
  (if z < 0 then "-" else "") ++ natDisplay z.natAbs

/-- Rendering of a rational cell value in the CSV export. -/
def ratToString (q : ℚ) : String :=
  if q.den = 1 then intToString q.num
  else intToString q.num ++ "/" ++ natDisplay q.den

/-- A category row joined onto a transaction row (name and color). -/
structure Category where
  name : String
  color : String
deriving DecidableEq

/-- A transaction row as the reports page receives it: its type, amount,
the calendar month of its date (absolute month index), and the joined
category, if any. -/
structure Tx where
  type : String
  amount : ℚ
  month : ℕ
  category : Option Category
deriving DecidableEq

/-- One bucket of the monthly chart data. -/
structure ChartData where
  name : String
  income : ℚ
  expense : ℚ
deriving DecidableEq

/-- Default bucket used with List.getD. -/
def dfltCD : ChartData := ⟨"", 0, 0⟩

/-- The six zeroed buckets keyed in the loop for i = 5 down to 0 over
subMonths(now, i): oldest first. -/
def initMonths (now : ℕ) : List ChartData :=
  [⟨monthLabel (now - 5), 0, 0⟩, ⟨monthLabel (now - 4), 0, 0⟩,
   ⟨monthLabel (now - 3), 0, 0⟩, ⟨monthLabel (now - 2), 0, 0⟩,
   ⟨monthLabel (now - 1), 0, 0⟩, ⟨monthLabel now, 0, 0⟩]

/-- Effect of one transaction on one bucket: if the bucket's key equals the
transaction's month label, add the amount to the matching sum. -/
def applyEntry (t : Tx) (cd : ChartData) : ChartData :=
  if cd.name = monthLabel t.month then
    if t.type = "income" then ⟨cd.name, cd.income + t.amount, cd.expense⟩
    else if t.type = "expense" then ⟨cd.name, cd.income, cd.expense + t.amount⟩
    else cd
  else cd

/-- Effect of one transaction on the keyed record of buckets. -/
def applyTx (acc : List ChartData) (t : Tx) : List ChartData :=
  acc.map (applyEntry t)

/-- processMonthlyData of Reports.tsx: fill the six-month window from the
transaction list; months outside the window are ignored. -/
def processMonthlyData (now : ℕ) (txs : List Tx) : List ChartData :=
  txs.foldl applyTx (initMonths now)

/-- One slice of the category pie data. -/
structure CategoryData where
  name : String
  value : ℚ
  color : String
deriving DecidableEq

/-- The chart color palette of Reports.tsx. -/
def COLORS : List String :=
  ["#3B82F6", "#10B981", "#F59E0B", "#EF4444", "#8B5CF6", "#EC4899", "#06B6D4", "#84CC16"]

/-- Whether the transaction passes the category-aggregation filter:
expense type and a non-null category. -/
def isExpCat (t : Tx) : Bool := t.type == "expense" && t.category.isSome

/-- Effect of one (filtered) transaction on the category record: create the
bucket for its category name if absent (with the transaction's color,
defaulting when falsy), then add the amount. -/
def catStep (acc : List CategoryData) (t : Tx) : List CategoryData :=
  match t.category with
  | none => acc
  | some c =>
    if acc.any fun e => e.name = c.name then
      acc.map fun e => if e.name = c.name then ⟨e.name, e.value + t.amount, e.color⟩ else e
    else
      acc ++ [⟨c.name, t.amount, jsOr c.color (COLORS.getD 0 "")⟩]

/-- processCategoryData of Reports.tsx. -/
def processCategoryData (txs : List Tx) : List CategoryData :=
  (txs.filter isExpCat).foldl catStep []

/-- The global statistics of Reports.tsx. -/
structure Stats where
  totalIncome : ℚ
  totalExpense : ℚ
  netBalance : ℚ
deriving DecidableEq

/-- calculateStats of Reports.tsx. -/
def calculateStats (txs : List Tx) : Stats :=
  let ti := ((txs.filter fun t => t.type == "income").foldl (fun s t => s + t.amount) 0)
  let te := ((txs.filter fun t => t.type == "expense").foldl (fun s t => s + t.amount) 0)
  ⟨ti, te, ti - te⟩

/-- One data row of the CSV export. -/
def csvRow (row : ChartData) : String :=
  String.intercalate ","
    [row.name, ratToString row.income, ratToString row.expense,
     ratToString (row.income - row.expense)]

/-- The lines of the CSV export: fixed header then one row per bucket. -/
def csvLines (data : List ChartData) : List String :=
  String.intercalate "," ["Month", "Income", "Expense", "Net"] :: data.map csvRow

/-- exportCSV of Reports.tsx: the serialized text block. -/
def csvContent (data : List ChartData) : String :=
  String.intercalate "\n" (csvLines data)

/-- Name of the downloaded file, from the current ISO date. -/
def exportFileName (today : String) : String := "financial-report-" ++ today ++ ".csv"

/-- MIME type of the exported blob. -/
def exportMime : String := "text/csv"

theorem applyEntry_name (t : Tx) (cd : ChartData) : (applyEntry t cd).name = cd.name := by
  unfold applyEntry
  split_ifs <;> rfl

/-- Per-transaction income contribution to the bucket keyed name. -/
def incomeContrib (name : String) (txs : List Tx) : ℚ :=
  (txs.map fun t =>
    if t.type = "income" ∧ name = monthLabel t.month then t.amount else 0).sum

/-- Per-transaction expense contribution to the bucket keyed name. -/
def expenseContrib (name : String) (txs : List Tx) : ℚ :=
  (txs.map fun t =>
    if t.type = "expense" ∧ name = monthLabel t.month then t.amount else 0).sum

theorem applyEntry_income (t : Tx) (cd : ChartData) :
    (applyEntry t cd).income =
      cd.income + (if t.type = "income" ∧ cd.name = monthLabel t.month then t.amount else 0) := by
  unfold applyEntry
  split_ifs with h1 h2 h3 h4 h5 <;> simp_all

theorem applyEntry_expense (t : Tx) (cd : ChartData) :
    (applyEntry t cd).expense =
      cd.expense + (if t.type = "expense" ∧ cd.name = monthLabel t.month then t.amount else 0) := by
  unfold applyEntry
  split_ifs with h1 h2 h3 h4 h5 <;> simp_all

theorem applyTx_length (acc : List ChartData) (t : Tx) :
    (applyTx acc t).length = acc.length := by
  simp [applyTx]

theorem applyTx_getD (acc : List ChartData) (t : Tx) (i : ℕ) (hi : i < acc.length) :
    (applyTx acc t).getD i dfltCD = applyEntry t (acc.getD i dfltCD) := by
  rw [applyTx, List.getD_eq_getElem _ _ (by simpa using hi),
    List.getD_eq_getElem _ _ hi, List.getElem_map]

theorem foldl_applyTx_length (l : List Tx) :
    ∀ init : List ChartData, (l.foldl applyTx init).length = init.length := by
  induction l with
  | nil => intro init; rfl
  | cons t rest ih =>
    intro init
    rw [List.foldl_cons, ih, applyTx_length]

theorem foldl_applyTx_getD (l : List Tx) :
    ∀ (init : List ChartData) (i : ℕ), i < init.length →
      ((l.foldl applyTx init).getD i dfltCD).name = (init.getD i dfltCD).name ∧
      ((l.foldl applyTx init).getD i dfltCD).income =
        (init.getD i dfltCD).income + incomeContrib ((init.getD i dfltCD).name) l ∧
      ((l.foldl applyTx init).getD i dfltCD).expense =
        (init.getD i dfltCD).expense + expenseContrib ((init.getD i dfltCD).name) l := by
  induction l with
  | nil =>
    intro init i hi
    refine ⟨rfl, ?hinc, ?hexp⟩
    case hinc => simp [incomeContrib]
    case hexp => simp [expenseContrib]
  | cons t rest ih =>
    intro init i hi
    rw [List.foldl_cons]
    have hlen : i < (applyTx init t).length := by rwa [applyTx_length]
    obtain ⟨hn, hinc, hexp⟩ := ih (applyTx init t) i hlen
    rw [applyTx_getD _ _ _ hi] at hn hinc hexp
    rw [applyEntry_name] at hn hinc hexp
    refine ⟨hn, ?hinc, ?hexp⟩
    · rw [hinc, applyEntry_income]
      simp only [incomeContrib, List.map_cons, List.sum_cons]
      rw [add_assoc]
    · rw [hexp, applyEntry_expense]
      simp only [expenseContrib, List.map_cons, List.sum_cons]
      rw [add_assoc]

theorem applyTx_namesMap (acc : List ChartData) (t : Tx) :
    (applyTx acc t).map (fun cd => cd.name) = acc.map fun cd => cd.name := by
  rw [applyTx, List.map_map]
  exact List.map_congr_left fun cd _ => applyEntry_name t cd

theorem foldl_applyTx_namesMap (l : List Tx) :
    ∀ init : List ChartData,
      (l.foldl applyTx init).map (fun cd => cd.name) = init.map fun cd => cd.name := by
  induction l with
  | nil => intro init; rfl
  | cons t rest ih =>
    intro init
    rw [List.foldl_cons, ih, applyTx_namesMap]

theorem incomeContrib_label (M : ℕ) (l : List Tx) :
    incomeContrib (monthLabel M) l =
      ((l.filter fun t => t.type == "income" && t.month == M).map fun t => t.amount).sum := by
  induction l with
  | nil => simp [incomeContrib]
  | cons t rest ih =>
    rw [incomeContrib] at ih ⊢
    rw [List.map_cons, List.sum_cons]
    by_cases hcond : t.type = "income" ∧ monthLabel M = monthLabel t.month
    · have hm : t.month = M := (monthLabel_inj hcond.2).symm
      have hb : (t.type == "income" && t.month == M) = true := by
        simp [hcond.1, hm]
      rw [if_pos hcond, List.filter_cons, if_pos hb, List.map_cons, List.sum_cons, ih]
    · have hb : (t.type == "income" && t.month == M) = false := by
        by_cases h1 : t.type = "income"
        · have h2 : t.month ≠ M := by
            intro hm
            exact hcond ⟨h1, by rw [hm]⟩
          simp [h2]
        · simp [h1]
      rw [if_neg hcond, List.filter_cons, if_neg (by simp [hb]), zero_add, ih]

theorem expenseContrib_label (M : ℕ) (l : List Tx) :
    expenseContrib (monthLabel M) l =
      ((l.filter fun t => t.type == "expense" && t.month == M).map fun t => t.amount).sum := by
  induction l with
  | nil => simp [expenseContrib]
  | cons t rest ih =>
    rw [expenseContrib] at ih ⊢
    rw [List.map_cons, List.sum_cons]
    by_cases hcond : t.type = "expense" ∧ monthLabel M = monthLabel t.month
    · have hm : t.month = M := (monthLabel_inj hcond.2).symm
      have hb : (t.type == "expense" && t.month == M) = true := by
        simp [hcond.1, hm]
      rw [if_pos hcond, List.filter_cons, if_pos hb, List.map_cons, List.sum_cons, ih]
    · have hb : (t.type == "expense" && t.month == M) = false := by
        by_cases h1 : t.type = "expense"
        · have h2 : t.month ≠ M := by
            intro hm
            exact hcond ⟨h1, by rw [hm]⟩
          simp [h2]
        · simp [h1]
      rw [if_neg hcond, List.filter_cons, if_neg (by simp [hb]), zero_add, ih]

theorem processMonthly_bucket (now : ℕ) (txs : List Tx) (i : ℕ) (hi : i < 6) :
    ((processMonthlyData now txs).getD i dfltCD).name = monthLabel (now - (5 - i)) ∧
    ((processMonthlyData now txs).getD i dfltCD).income =
      incomeContrib (monthLabel (now - (5 - i))) txs ∧
    ((processMonthlyData now txs).getD i dfltCD).expense =
      expenseContrib (monthLabel (now - (5 - i))) txs := by
  have h := foldl_applyTx_getD txs (initMonths now) i (by simpa [initMonths] using hi)
  rw [processMonthlyData]
  interval_cases i <;>
    simpa [initMonths, List.getD_cons_zero, List.getD_cons_succ] using h

theorem applyTx_eq_of_out (now : ℕ) (l1 : List Tx) (t : Tx)
    (hout : t.month < now - 5 ∨ now < t.month) :
    applyTx (l1.foldl applyTx (initMonths now)) t = l1.foldl applyTx (initMonths now) := by
  have hnames := foldl_applyTx_namesMap l1 (initMonths now)
  rw [applyTx]
  have hid : ∀ cd ∈ l1.foldl applyTx (initMonths now), applyEntry t cd = cd := by
    intro cd hcd
    have hname : cd.name ∈ (l1.foldl applyTx (initMonths now)).map fun c => c.name :=
      List.mem_map_of_mem _ hcd
    rw [hnames] at hname
    have hne : cd.name ≠ monthLabel t.month := by
      simp only [initMonths, List.map_cons, List.map_nil, List.mem_cons,
        List.not_mem_nil, or_false] at hname
      rcases hname with h | h | h | h | h | h <;>
        · rw [h]
          intro heq
          have := monthLabel_inj heq
          omega
    unfold applyEntry
    rw [if_neg hne]
  calc (l1.foldl applyTx (initMonths now)).map (applyEntry t)
      = (l1.foldl applyTx (initMonths now)).map id := List.map_congr_left fun cd hcd => hid cd hcd
    _ = l1.foldl applyTx (initMonths now) := List.map_id _

theorem processMonthly_out (now : ℕ) (t : Tx)
    (hout : t.month < now - 5 ∨ now < t.month) (l1 l2 : List Tx) :
    processMonthlyData now (l1 ++ t :: l2) = processMonthlyData now (l1 ++ l2) := by
  rw [processMonthlyData, processMonthlyData, List.foldl_append, List.foldl_append,
    List.foldl_cons, applyTx_eq_of_out now l1 t hout]

/-- The property C1 asserts of the monthly bucketing: six buckets, labelled
oldest to newest by the months from now - 5 through now, each bucket's
income (resp. expense) sum being exactly the sum of the amounts of the
income-type (resp. expense-type) transactions of its month, and transactions
of out-of-window months contributing nothing. -/
def monthlySpec (now : ℕ) (txs : List Tx) : Prop :=
  (processMonthlyData now txs).length = 6 ∧
  (∀ i, i < 6 →
    ((processMonthlyData now txs).getD i dfltCD).name = monthLabel (now - 5 + i) ∧
    ((processMonthlyData now txs).getD i dfltCD).income =
      ((txs.filter fun t => t.type == "income" && t.month == now - 5 + i).map
        fun t => t.amount).sum ∧
    ((processMonthlyData now txs).getD i dfltCD).expense =
      ((txs.filter fun t => t.type == "expense" && t.month == now - 5 + i).map
        fun t => t.amount).sum) ∧
  (∀ t : Tx, t.month < now - 5 ∨ now < t.month →
    ∀ l1 l2 : List Tx,
      processMonthlyData now (l1 ++ t :: l2) = processMonthlyData now (l1 ++ l2))

/-- C1: for every transaction list, the monthly bucketing produces exactly six
buckets, one per calendar month from five months before the current month
through the current month, labelled by short month-name plus year, oldest to
newest; each bucket starts at zero and accumulates the income-type and
expense-type amounts of its month, and transactions outside the window
contribute nothing (the function is total, so no error is raised). -/
theorem claim_C1_monthly_bucketing (now : ℕ) (txs : List Tx) (hnow : 5 ≤ now) :
    monthlySpec now txs := by
  refine ⟨?hlen, ?hbuckets, ?hout⟩
  case hlen =>
    rw [processMonthlyData, foldl_applyTx_length]
    rfl
  case hbuckets =>
    intro i hi
    have harith : now - (5 - i) = now - 5 + i := by omega
    obtain ⟨hn, hinc, hexp⟩ := processMonthly_bucket now txs i hi
    rw [harith] at hn hinc hexp
    refine ⟨hn, ?hi2, ?he2⟩
    case hi2 => rw [hinc, incomeContrib_label]
    case he2 => rw [hexp, expenseContrib_label]
  case hout =>
    intro t h l1 l2
    exact processMonthly_out now t h l1 l2

/-- Transactions for the C1 witness: an income and an expense inside the
window, and an income far outside it. -/
def wTxs1 : List Tx :=
  [⟨"income", 7, 24005, none⟩, ⟨"expense", 3, 24003, none⟩, ⟨"income", 2, 10, none⟩]

theorem claim_C1_monthly_bucketing_witness : 5 ≤ 24005 ∧ monthlySpec 24005 wTxs1 :=
  ⟨by decide, claim_C1_monthly_bucketing 24005 wTxs1 (by decide)⟩

theorem filter_middle_false {α : Type} (p : α → Bool) (t : α) (h : p t = false)
    (l1 l2 : List α) : (l1 ++ t :: l2).filter p = (l1 ++ l2).filter p := by
  rw [List.filter_append, List.filter_append, List.filter_cons, h]
  simp

theorem applyEntry_other (t : Tx) (hty : t.type ≠ "income" ∧ t.type ≠ "expense")
    (cd : ChartData) : applyEntry t cd = cd := by
  unfold applyEntry
  split_ifs with h1 h2 h3
  · exact absurd h2 hty.1
  · exact absurd h3 hty.2
  · rfl
  · rfl

/-- C10: a transaction whose type is neither income nor expense contributes
nothing: removing it changes neither the monthly buckets, nor the category
buckets, nor the global totals. -/
theorem claim_C10_other_type (t : Tx) (hty : t.type ≠ "income" ∧ t.type ≠ "expense")
    (now : ℕ) (l1 l2 : List Tx) :
    processMonthlyData now (l1 ++ t :: l2) = processMonthlyData now (l1 ++ l2) ∧
    processCategoryData (l1 ++ t :: l2) = processCategoryData (l1 ++ l2) ∧
    calculateStats (l1 ++ t :: l2) = calculateStats (l1 ++ l2) := by
  have hii : (fun t : Tx => t.type == "income") t = false := by simp [hty.1]
  have hee : (fun t : Tx => t.type == "expense") t = false := by simp [hty.2]
  have hcat : isExpCat t = false := by simp [isExpCat, hty.2]
  refine ⟨?hm, ?hc, ?hs⟩
  case hm =>
    rw [processMonthlyData, processMonthlyData, List.foldl_append, List.foldl_append,
      List.foldl_cons]
    congr 1
    rw [applyTx]
    calc (List.foldl applyTx (initMonths now) l1).map (applyEntry t)
        = (List.foldl applyTx (initMonths now) l1).map id :=
          List.map_congr_left fun cd _ => applyEntry_other t hty cd
      _ = List.foldl applyTx (initMonths now) l1 := List.map_id _
  case hc =>
    rw [processCategoryData, processCategoryData, filter_middle_false isExpCat t hcat]
  case hs =>
    rw [calculateStats, calculateStats,
      filter_middle_false (fun t : Tx => t.type == "income") t hii,
      filter_middle_false (fun t : Tx => t.type == "expense") t hee]

/-- A transfer-type transaction used as C10 witness input. -/
def wOtherTx : Tx := ⟨"transfer", 5, 24005, some ⟨"Misc", "#FF0000"⟩⟩

theorem claim_C10_other_type_witness :
    (wOtherTx.type ≠ "income" ∧ wOtherTx.type ≠ "expense") ∧
    (processMonthlyData 24005 (wTxs1 ++ wOtherTx :: wTxs1) =
        processMonthlyData 24005 (wTxs1 ++ wTxs1) ∧
      processCategoryData (wTxs1 ++ wOtherTx :: wTxs1) =
        processCategoryData (wTxs1 ++ wTxs1) ∧
      calculateStats (wTxs1 ++ wOtherTx :: wTxs1) = calculateStats (wTxs1 ++ wTxs1)) :=
  ⟨by decide, claim_C10_other_type wOtherTx (by decide) 24005 wTxs1 wTxs1⟩

theorem foldl_add_amount (l : List Tx) :
    ∀ s : ℚ, l.foldl (fun s t => s + t.amount) s = s + (l.map fun t => t.amount).sum := by
  induction l with
  | nil => intro s; simp
  | cons t rest ih =>
    intro s
    rw [List.foldl_cons, ih, List.map_cons, List.sum_cons, add_assoc]

/-- A wallet row as the dashboard receives it. -/
structure Wallet where
  balance : ℚ
deriving DecidableEq

/-- The dashboard statistics triple. -/
structure DashStats where
  totalBalance : ℚ
  income : ℚ
  expenses : ℚ
deriving DecidableEq

/-- The statistics computed by the dashboard's fetchData: sum of wallet
balances, and the income and expense sums over all transaction rows. -/
def dashboardStats (ws : List Wallet) (rows : List Tx) : DashStats :=
  ⟨ws.foldl (fun s w => s + w.balance) 0,
   (rows.filter fun t => t.type == "income").foldl (fun s t => s + t.amount) 0,
   (rows.filter fun t => t.type == "expense").foldl (fun s t => s + t.amount) 0⟩

/-- The example scenario of the specification. -/
def exWallets : List Wallet := [⟨100⟩, ⟨50⟩]

/-- The example transactions of the specification. -/
def exTxs : List Tx := [⟨"income", 200, 24005, none⟩, ⟨"expense", 75, 24005, none⟩]

/-- C3: the global stats are the income and expense sums with net equal to
their difference, the empty list yields all zeros, and on the example
scenario the totals are 150 / 200 / 75 with net 125. -/
theorem claim_C3_global_stats :
    (∀ txs : List Tx,
      (calculateStats txs).netBalance =
        (calculateStats txs).totalIncome - (calculateStats txs).totalExpense) ∧
    (∀ txs : List Tx,
      (calculateStats txs).totalIncome =
          ((txs.filter fun t => t.type == "income").map fun t => t.amount).sum ∧
      (calculateStats txs).totalExpense =
          ((txs.filter fun t => t.type == "expense").map fun t => t.amount).sum) ∧
    calculateStats ([] : List Tx) = ⟨0, 0, 0⟩ ∧
    dashboardStats exWallets exTxs = ⟨150, 200, 75⟩ ∧
    calculateStats exTxs = ⟨200, 75, 125⟩ := by
  have hne1 : ¬("expense" : String) = "income" := by decide
  have hne2 : ¬("income" : String) = "expense" := by decide
  refine ⟨fun txs => rfl, fun txs => ⟨?hti, ?hte⟩, by norm_num [calculateStats],
    by norm_num [dashboardStats, exWallets, exTxs, List.filter_cons, hne1, hne2],
    by norm_num [calculateStats, exTxs, List.filter_cons, hne1, hne2]⟩
  case hti =>
    have h := foldl_add_amount (txs.filter fun t => t.type == "income") 0
    rw [zero_add] at h
    exact h
  case hte =>
    have h := foldl_add_amount (txs.filter fun t => t.type == "expense") 0
    rw [zero_add] at h
    exact h

theorem incomeContrib_cons (name : String) (t : Tx) (rest : List Tx) :
    incomeContrib name (t :: rest) =
      (if t.type = "income" ∧ name = monthLabel t.month then t.amount else 0) +
        incomeContrib name rest := by
  simp [incomeContrib]

theorem expenseContrib_cons (name : String) (t : Tx) (rest : List Tx) :
    expenseContrib name (t :: rest) =
      (if t.type = "expense" ∧ name = monthLabel t.month then t.amount else 0) +
        expenseContrib name rest := by
  simp [expenseContrib]

theorem contrib_window_sum (ty : String) (now : ℕ) (hnow : 5 ≤ now) :
    ∀ txs : List Tx, (∀ t ∈ txs, now - 5 ≤ t.month ∧ t.month ≤ now) →
      (∑ i ∈ Finset.range 6,
        (txs.map fun t =>
          if t.type = ty ∧ monthLabel (now - (5 - i)) = monthLabel t.month then t.amount
          else 0).sum) =
        (txs.map fun t => if t.type = ty then t.amount else 0).sum := by
  intro txs
  induction txs with
  | nil => simp
  | cons t rest ih =>
    intro hw
    have hwt := hw t (List.mem_cons_self t rest)
    have hwr : ∀ x ∈ rest, now - 5 ≤ x.month ∧ x.month ≤ now :=
      fun x hx => hw x (List.mem_cons_of_mem t hx)
    simp only [List.map_cons, List.sum_cons]
    rw [Finset.sum_add_distrib, ih hwr]
    congr 1
    have hk : t.month - (now - 5) < 6 := by omega
    have hcond : ∀ i ∈ Finset.range 6,
        (if t.type = ty ∧ monthLabel (now - (5 - i)) = monthLabel t.month then t.amount
          else 0) =
          if i = t.month - (now - 5) ∧ t.type = ty then t.amount else 0 := by
      intro i hi
      have hi6 : i < 6 := Finset.mem_range.mp hi
      by_cases hp : t.type = ty
      · by_cases hm : now - (5 - i) = t.month
        · have hik : i = t.month - (now - 5) := by omega
          rw [if_pos ⟨hp, by rw [hm]⟩, if_pos ⟨hik, hp⟩]
        · have h1 : ¬(t.type = ty ∧ monthLabel (now - (5 - i)) = monthLabel t.month) := by
            rintro ⟨-, hl⟩
            exact hm (monthLabel_inj hl)
          have h2 : ¬(i = t.month - (now - 5) ∧ t.type = ty) := by
            rintro ⟨hik, -⟩
            exact hm (by omega)
          rw [if_neg h1, if_neg h2]
      · rw [if_neg fun hc => hp hc.1, if_neg fun hc => hp hc.2]
    rw [Finset.sum_congr rfl hcond]
    by_cases hp : t.type = ty
    · simp only [hp, and_true]
      rw [Finset.sum_ite_eq' (Finset.range 6) (t.month - (now - 5)) fun i => t.amount,
        if_pos (Finset.mem_range.mpr hk)]
      simp
    · simp [hp]

theorem total_eq_ite (ty : String) (l : List Tx) :
    ((l.filter fun t => t.type == ty).map fun t => t.amount).sum =
      (l.map fun t => if t.type = ty then t.amount else 0).sum := by
  induction l with
  | nil => rfl
  | cons t rest ih =>
    rw [List.filter_cons, List.map_cons, List.sum_cons]
    by_cases h : t.type = ty
    · rw [if_pos (by simp [h]), if_pos h, List.map_cons, List.sum_cons, ih]
    · rw [if_neg (by simp [h]), if_neg h, ih, zero_add]

theorem total_income_eq (txs : List Tx) :
    (calculateStats txs).totalIncome =
      ((txs.filter fun t => t.type == "income").map fun t => t.amount).sum := by
  have h := foldl_add_amount (txs.filter fun t => t.type == "income") 0
  rw [zero_add] at h
  exact h

theorem total_expense_eq (txs : List Tx) :
    (calculateStats txs).totalExpense =
      ((txs.filter fun t => t.type == "expense").map fun t => t.amount).sum := by
  have h := foldl_add_amount (txs.filter fun t => t.type == "expense") 0
  rw [zero_add] at h
  exact h

/-- C4: when every transaction falls inside the six-month window, the sum of
the per-month income values across the six buckets equals the independently
computed total income, and likewise for expense. -/
theorem claim_C4_window_sum (now : ℕ) (txs : List Tx) (hnow : 5 ≤ now)
    (hw : ∀ t ∈ txs, now - 5 ≤ t.month ∧ t.month ≤ now) :
    (∑ i ∈ Finset.range 6, ((processMonthlyData now txs).getD i dfltCD).income) =
        (calculateStats txs).totalIncome ∧
    (∑ i ∈ Finset.range 6, ((processMonthlyData now txs).getD i dfltCD).expense) =
        (calculateStats txs).totalExpense := by
  constructor
  · have hbucket : ∀ i ∈ Finset.range 6,
        ((processMonthlyData now txs).getD i dfltCD).income =
          incomeContrib (monthLabel (now - (5 - i))) txs :=
      fun i hi => (processMonthly_bucket now txs i (Finset.mem_range.mp hi)).2.1
    rw [Finset.sum_congr rfl hbucket]
    simp only [incomeContrib]
    rw [contrib_window_sum "income" now hnow txs hw, total_income_eq, total_eq_ite]
  · have hbucket : ∀ i ∈ Finset.range 6,
        ((processMonthlyData now txs).getD i dfltCD).expense =
          expenseContrib (monthLabel (now - (5 - i))) txs :=
      fun i hi => (processMonthly_bucket now txs i (Finset.mem_range.mp hi)).2.2
    rw [Finset.sum_congr rfl hbucket]
    simp only [expenseContrib]
    rw [contrib_window_sum "expense" now hnow txs hw, total_expense_eq, total_eq_ite]

/-- In-window transactions for the C4 witness. -/
def wTxs4 : List Tx :=
  [⟨"income", 10, 24004, none⟩, ⟨"income", 5, 24000, none⟩, ⟨"expense", 4, 24005, none⟩]

theorem claim_C4_window_sum_witness :
    (5 ≤ 24005 ∧ ∀ t ∈ wTxs4, 24005 - 5 ≤ t.month ∧ t.month ≤ 24005) ∧
    ((∑ i ∈ Finset.range 6, ((processMonthlyData 24005 wTxs4).getD i dfltCD).income) =
        (calculateStats wTxs4).totalIncome ∧
      (∑ i ∈ Finset.range 6, ((processMonthlyData 24005 wTxs4).getD i dfltCD).expense) =
        (calculateStats wTxs4).totalExpense) :=
  ⟨⟨by decide, by decide⟩, claim_C4_window_sum 24005 wTxs4 (by decide) (by decide)⟩

theorem getD_map_of_lt {α β : Type} (f : α → β) (l : List α) (i : ℕ) (hi : i < l.length)
    (d : α) (d' : β) : (l.map f).getD i d' = f (l.getD i d) := by
  rw [List.getD_eq_getElem _ _ (by simpa using hi), List.getD_eq_getElem _ _ hi,
    List.getElem_map]

theorem processMonthly_length (now : ℕ) (txs : List Tx) :
    (processMonthlyData now txs).length = 6 := by
  rw [processMonthlyData, foldl_applyTx_length]
  rfl

/-- C5: the CSV export of the monthly view starts with the fixed header line,
followed by exactly one line per monthly bucket (seven lines in all) in
chronological order, each row's Net field being that row's income minus that
row's expense; the payload is text/csv named financial-report-<date>.csv. -/
theorem claim_C5_csv_export (now : ℕ) (txs : List Tx) (hnow : 5 ≤ now) :
    (csvLines (processMonthlyData now txs)).length = 7 ∧
    (csvLines (processMonthlyData now txs)).getD 0 "" = "Month,Income,Expense,Net" ∧
    (∀ i, i < 6 →
      (csvLines (processMonthlyData now txs)).getD (i + 1) "" =
        monthLabel (now - 5 + i) ++ "," ++
          ratToString ((processMonthlyData now txs).getD i dfltCD).income ++ "," ++
          ratToString ((processMonthlyData now txs).getD i dfltCD).expense ++ "," ++
          ratToString (((processMonthlyData now txs).getD i dfltCD).income -
            ((processMonthlyData now txs).getD i dfltCD).expense)) ∧
    exportFileName "2026-10-11" = "financial-report-2026-10-11.csv" ∧
    exportMime = "text/csv" := by
  refine ⟨?hlen, rfl, ?hrows, rfl, rfl⟩
  case hlen =>
    rw [csvLines, List.length_cons, List.length_map, processMonthly_length]
  case hrows =>
    intro i hi
    have hlt : i < (processMonthlyData now txs).length := by
      rwa [processMonthly_length]
    rw [csvLines, List.getD_cons_succ, getD_map_of_lt csvRow _ i hlt dfltCD ""]
    have hname : ((processMonthlyData now txs).getD i dfltCD).name =
        monthLabel (now - 5 + i) := by
      have h := (processMonthly_bucket now txs i hi).1
      have harith : now - (5 - i) = now - 5 + i := by omega
      rwa [harith] at h
    rw [csvRow, hname]
    rfl

theorem claim_C5_csv_export_witness :
    5 ≤ 24005 ∧
    ((csvLines (processMonthlyData 24005 wTxs1)).length = 7 ∧
      (csvLines (processMonthlyData 24005 wTxs1)).getD 0 "" = "Month,Income,Expense,Net" ∧
      (∀ i, i < 6 →
        (csvLines (processMonthlyData 24005 wTxs1)).getD (i + 1) "" =
          monthLabel (24005 - 5 + i) ++ "," ++
            ratToString ((processMonthlyData 24005 wTxs1).getD i dfltCD).income ++ "," ++
            ratToString ((processMonthlyData 24005 wTxs1).getD i dfltCD).expense ++ "," ++
            ratToString (((processMonthlyData 24005 wTxs1).getD i dfltCD).income -
              ((processMonthlyData 24005 wTxs1).getD i dfltCD).expense)) ∧
      exportFileName "2026-10-11" = "financial-report-2026-10-11.csv" ∧
      exportMime = "text/csv") :=
  ⟨by decide, claim_C5_csv_export 24005 wTxs1 (by decide)⟩

/-- The transaction form state of the Transactions page. -/
structure TxFormData where
  type : String
  amount : String
  description : String
  date : String
  wallet_id : String
  category_id : String
deriving DecidableEq

/-- A category row as the Transactions page receives it. -/
structure CategoryRec where
  id : String
  name : String
  type : String
deriving DecidableEq

/-- The type-switch buttons of the form: set the new type and clear the
selected category. -/
def setFormType (fd : TxFormData) (t : String) : TxFormData :=
  ⟨t, fd.amount, fd.description, fd.date, fd.wallet_id, ""⟩

/-- availableCategories of the Transactions page: the categories whose type
matches the form's current type. -/
def availableCategories (categories : List CategoryRec) (fd : TxFormData) :
    List CategoryRec :=
  categories.filter fun c => c.type == fd.type

/-- C8: switching the form's type to income or to expense always clears the
selected category, and the selectable options become exactly the categories
whose type equals the new type. -/
theorem claim_C8_type_switch (fd : TxFormData) (t : String) (cats : List CategoryRec)
    (ht : t = "income" ∨ t = "expense") :
    (setFormType fd t).category_id = "" ∧
    availableCategories cats (setFormType fd t) = (cats.filter fun c => c.type == t) ∧
    ∀ c : CategoryRec,
      c ∈ availableCategories cats (setFormType fd t) ↔ c ∈ cats ∧ c.type = t := by
  refine ⟨rfl, rfl, fun c => ?hmem⟩
  case hmem => simp [availableCategories, setFormType, List.mem_filter]

/-- Form state for the C8 witness: an expense form with a category chosen. -/
def wFd : TxFormData := ⟨"expense", "10", "d", "2026-01-01", "w1", "c9"⟩

/-- Categories for the C8 witness. -/
def wCats : List CategoryRec := [⟨"c1", "Salary", "income"⟩, ⟨"c2", "Food", "expense"⟩]

theorem claim_C8_type_switch_witness :
    ("income" = "income" ∨ "income" = "expense") ∧
    ((setFormType wFd "income").category_id = "" ∧
      availableCategories wCats (setFormType wFd "income") =
        (wCats.filter fun c => c.type == "income") ∧
      ∀ c : CategoryRec,
        c ∈ availableCategories wCats (setFormType wFd "income") ↔
          c ∈ wCats ∧ c.type = "income") :=
  ⟨Or.inl rfl, claim_C8_type_switch wFd "income" wCats (Or.inl rfl)⟩

/-- The financial context snapshot of the assistant. -/
structure FinCtx where
  walletsCount : ℕ
  totalBalance : ℚ
  recentIncome : ℚ
  recentExpenses : ℚ
  transactionsCount : ℕ
deriving DecidableEq

/-- The savings amount of the assistant's save branch. -/
def savingsOf (c : FinCtx) : ℚ := c.recentIncome - c.recentExpenses

/-- The guarded savings rate of the assistant's save branch. -/
def savingsRate (c : FinCtx) : ℚ :=
  if c.recentIncome > 0 then savingsOf c / c.recentIncome * 100 else 0

/-- C9: the savings-rate division is guarded: with zero recent income the
rate is exactly 0 (the division is never taken), and with positive income it
is (income - expenses) / income * 100. -/
theorem claim_C9_savings_guard (c : FinCtx) :
    (c.recentIncome = 0 → savingsRate c = 0) ∧
    (0 < c.recentIncome →
      savingsRate c = (c.recentIncome - c.recentExpenses) / c.recentIncome * 100) := by
  constructor
  · intro h
    rw [savingsRate, if_neg]
    rw [h]
    exact lt_irrefl 0
  · intro h
    rw [savingsRate, if_pos h, savingsOf]

/-- Snapshot for the C9 witness. -/
def wCtx : FinCtx := ⟨2, 150, 200, 75, 2⟩

theorem claim_C9_savings_guard_witness :
    0 < wCtx.recentIncome ∧
    savingsRate wCtx = (wCtx.recentIncome - wCtx.recentExpenses) / wCtx.recentIncome * 100 :=
  ⟨by norm_num [wCtx], (claim_C9_savings_guard wCtx).2 (by norm_num [wCtx])⟩

/-- JavaScript conditional plural suffix (count !== 1). -/
def plural (n : ℕ) : String := if n ≠ 1 then "s" else ""

/-- The assistant's balance/total response template. -/
def balanceResponse (c : FinCtx) : String :=
  "Your current total balance is R$ " ++ formatBRL c.totalBalance ++ " across " ++
    natDisplay c.walletsCount ++ " wallet" ++ plural c.walletsCount ++ "."

/-- The assistant's income response template. -/
def incomeResponse (c : FinCtx) : String :=
  "Your recent income is R$ " ++ formatBRL c.recentIncome ++ ". " ++
    (if c.recentIncome > c.recentExpenses then
      "Great job! Your income is higher than your expenses."
    else "Consider increasing your income streams or reducing expenses.")

/-- The assistant's expense/spending response template. -/
def expenseResponse (c : FinCtx) : String :=
  "Your recent expenses total R$ " ++ formatBRL c.recentExpenses ++ ". " ++
    (if c.recentExpenses > c.recentIncome then
      "You\x27re spending more than you\x27re earning. Consider reviewing your budget."
    else "Good job managing your expenses!")

/-- The assistant's save/saving response template. -/
def savingsResponse (c : FinCtx) : String :=
  "Based on your recent transactions, you\x27re saving approximately R$ " ++
    formatBRL (savingsOf c) ++ " (" ++ toFixed1 (savingsRate c) ++
    "% of income). Financial experts recommend saving at least 20% of your income."

/-- The assistant's wallet response template. -/
def walletResponse (c : FinCtx) : String :=
  "You currently have " ++ natDisplay c.walletsCount ++ " wallet" ++
    plural c.walletsCount ++
    " set up. Consider organizing your finances by creating separate wallets for different purposes like personal, business, or investments."

/-- The five fixed tips of the advice branch. -/
def tips : List String :=
  ["Track every transaction to understand where your money goes.",
   "Create a budget and stick to it - allocate 50% to needs, 30% to wants, and 20% to savings.",
   "Build an emergency fund covering 3-6 months of expenses.",
   "Review your subscriptions and cancel unused ones.",
   "Use the envelope method - allocate specific amounts to different spending categories."]

/-- The generic fallback message, echoing the user's input verbatim. -/
def fallbackResponse (userMessage : String) : String :=
  "I understand you\x27re asking about \"" ++ userMessage ++
    "\". Here\x27s what I can help you with:\n\n• Check your balance and financial overview\n• Analyze your income and expenses\n• Calculate your savings rate\n• Provide budgeting tips and advice\n• Help manage your wallets\n\nFeel free to ask me anything about your finances!"

/-- generateAIResponse of AIAssistant.tsx, over a given context snapshot;
the random tip choice of the advice branch is the explicit index r. -/
def generateAIResponse (c : FinCtx) (r : Fin 5) (userMessage : String) : String :=
  let lm := jsToLower userMessage
  if jsIncludes lm "balance" || jsIncludes lm "total" then balanceResponse c
  else if jsIncludes lm "income" then incomeResponse c
  else if jsIncludes lm "expense" || jsIncludes lm "spending" then expenseResponse c
  else if jsIncludes lm "save" || jsIncludes lm "saving" then savingsResponse c
  else if jsIncludes lm "wallet" then walletResponse c
  else if jsIncludes lm "advice" || jsIncludes lm "tip" || jsIncludes lm "help" then
    tips.getD r.val ""
  else fallbackResponse userMessage

/-- C6: the responder lower-cases the input and tests the keyword groups in
the fixed priority order balance/total, income, expense/spending,
save/saving, wallet, advice/tip/help, returning the first matching group's
template; a balance-matching input yields a response embedding the exact
formatted total balance, and an input matching no keyword yields the fixed
fallback containing the original input verbatim. -/
theorem claim_C6_responder (c : FinCtx) (r : Fin 5) (msg : String) :
    ((jsIncludes (jsToLower msg) "balance" = true ∨ jsIncludes (jsToLower msg) "total" = true) →
      generateAIResponse c r msg = balanceResponse c ∧
      jsIncludes (generateAIResponse c r msg) (formatBRL c.totalBalance) = true) ∧
    (jsIncludes (jsToLower msg) "balance" = false → jsIncludes (jsToLower msg) "total" = false →
      jsIncludes (jsToLower msg) "income" = true →
      generateAIResponse c r msg = incomeResponse c) ∧
    (jsIncludes (jsToLower msg) "balance" = false → jsIncludes (jsToLower msg) "total" = false →
      jsIncludes (jsToLower msg) "income" = false →
      (jsIncludes (jsToLower msg) "expense" = true ∨ jsIncludes (jsToLower msg) "spending" = true) →
      generateAIResponse c r msg = expenseResponse c) ∧
    (jsIncludes (jsToLower msg) "balance" = false → jsIncludes (jsToLower msg) "total" = false →
      jsIncludes (jsToLower msg) "income" = false → jsIncludes (jsToLower msg) "expense" = false →
      jsIncludes (jsToLower msg) "spending" = false →
      (jsIncludes (jsToLower msg) "save" = true ∨ jsIncludes (jsToLower msg) "saving" = true) →
      generateAIResponse c r msg = savingsResponse c) ∧
    (jsIncludes (jsToLower msg) "balance" = false → jsIncludes (jsToLower msg) "total" = false →
      jsIncludes (jsToLower msg) "income" = false → jsIncludes (jsToLower msg) "expense" = false →
      jsIncludes (jsToLower msg) "spending" = false → jsIncludes (jsToLower msg) "save" = false →
      jsIncludes (jsToLower msg) "saving" = false → jsIncludes (jsToLower msg) "wallet" = true →
      generateAIResponse c r msg = walletResponse c) ∧
    (jsIncludes (jsToLower msg) "balance" = false → jsIncludes (jsToLower msg) "total" = false →
      jsIncludes (jsToLower msg) "income" = false → jsIncludes (jsToLower msg) "expense" = false →
      jsIncludes (jsToLower msg) "spending" = false → jsIncludes (jsToLower msg) "save" = false →
      jsIncludes (jsToLower msg) "saving" = false → jsIncludes (jsToLower msg) "wallet" = false →
      (jsIncludes (jsToLower msg) "advice" = true ∨ jsIncludes (jsToLower msg) "tip" = true ∨
        jsIncludes (jsToLower msg) "help" = true) →
      generateAIResponse c r msg = tips.getD r.val "") ∧
    (jsIncludes (jsToLower msg) "balance" = false → jsIncludes (jsToLower msg) "total" = false →
      jsIncludes (jsToLower msg) "income" = false → jsIncludes (jsToLower msg) "expense" = false →
      jsIncludes (jsToLower msg) "spending" = false → jsIncludes (jsToLower msg) "save" = false →
      jsIncludes (jsToLower msg) "saving" = false → jsIncludes (jsToLower msg) "wallet" = false →
      jsIncludes (jsToLower msg) "advice" = false → jsIncludes (jsToLower msg) "tip" = false →
      jsIncludes (jsToLower msg) "help" = false →
      generateAIResponse c r msg = fallbackResponse msg ∧
      jsIncludes (generateAIResponse c r msg) msg = true) := by
  refine ⟨?hbal, ?hinc, ?hexp, ?hsav, ?hwal, ?hadv, ?hfall⟩
  case hbal =>
    intro h
    have hresp : generateAIResponse c r msg = balanceResponse c := by
      rcases h with h | h <;> simp [generateAIResponse, h]
    refine ⟨hresp, ?hsub⟩
    case hsub =>
      rw [hresp]
      have hshape : balanceResponse c =
          "Your current total balance is R$ " ++ formatBRL c.totalBalance ++
            (" across " ++ natDisplay c.walletsCount ++ " wallet" ++
              plural c.walletsCount ++ ".") := by
        rw [balanceResponse]
        simp [String.append_assoc]
      rw [hshape]
      exact jsIncludes_append _ _ _
  case hinc =>
    intro h1 h2 h3
    simp [generateAIResponse, h1, h2, h3]
  case hexp =>
    intro h1 h2 h3 h
    rcases h with h | h <;> simp [generateAIResponse, h1, h2, h3, h]
  case hsav =>
    intro h1 h2 h3 h4 h5 h
    rcases h with h | h <;> simp [generateAIResponse, h1, h2, h3, h4, h5, h]
  case hwal =>
    intro h1 h2 h3 h4 h5 h6 h7 h8
    simp [generateAIResponse, h1, h2, h3, h4, h5, h6, h7, h8]
  case hadv =>
    intro h1 h2 h3 h4 h5 h6 h7 h8 h
    rcases h with h | h | h <;>
      simp [generateAIResponse, h1, h2, h3, h4, h5, h6, h7, h8, h]
  case hfall =>
    intro h1 h2 h3 h4 h5 h6 h7 h8 h9 h10 h11
    have hresp : generateAIResponse c r msg = fallbackResponse msg := by
      simp [generateAIResponse, h1, h2, h3, h4, h5, h6, h7, h8, h9, h10, h11]
    refine ⟨hresp, ?hsub2⟩
    case hsub2 =>
      rw [hresp, fallbackResponse]
      exact jsIncludes_append _ _ _

/-- Input for the C6 witness. -/
def wMsg : String := "What is my Balance?"

theorem claim_C6_responder_witness :
    (jsIncludes (jsToLower wMsg) "balance" = true ∨ jsIncludes (jsToLower wMsg) "total" = true) ∧
    (generateAIResponse wCtx 0 wMsg = balanceResponse wCtx ∧
      jsIncludes (generateAIResponse wCtx 0 wMsg) (formatBRL wCtx.totalBalance) = true) :=
  ⟨Or.inl (by decide), (claim_C6_responder wCtx 0 wMsg).1 (Or.inl (by decide))⟩

/-- Whether the transaction carries a category with the given name. -/
def catNamed (name : String) (t : Tx) : Bool :=
  match t.category with
  | some c => c.name == name
  | none => false

/-- Whether the transaction is an expense carrying a category with the
given name. -/
def expCatNamed (name : String) (t : Tx) : Bool :=
  t.type == "expense" && catNamed name t

/-- Amount contributed under the given category name, over any rows. -/
def catAmount (name : String) (l : List Tx) : ℚ :=
  (l.map fun t => if catNamed name t then t.amount else 0).sum

/-- Amount contributed under the given category name by expense rows. -/
def catAmountE (name : String) (l : List Tx) : ℚ :=
  (l.map fun t => if expCatNamed name t then t.amount else 0).sum

/-- The category color carried by a transaction (empty when absent). -/
def colorOf (t : Tx) : String :=
  match t.category with
  | some c => c.color
  | none => ""

/-- The category name carried by a transaction (empty when absent). -/
def catName (t : Tx) : String :=
  match t.category with
  | some c => c.name
  | none => ""

/-- Lookup of the bucket keyed by a category name. -/
def lookupCat (name : String) (l : List CategoryData) : Option CategoryData :=
  l.find? fun e => e.name == name

theorem expCatNamed_eq (name : String) (t : Tx) :
    expCatNamed name t = (isExpCat t && catNamed name t) := by
  rcases t with ⟨ty, a, m, c⟩
  cases c <;> simp [expCatNamed, isExpCat, catNamed, Bool.and_assoc]

theorem catAmount_cons (name : String) (t : Tx) (rest : List Tx) :
    catAmount name (t :: rest) =
      (if catNamed name t then t.amount else 0) + catAmount name rest := by
  simp [catAmount]

theorem catAmountE_cons (name : String) (t : Tx) (rest : List Tx) :
    catAmountE name (t :: rest) =
      (if expCatNamed name t then t.amount else 0) + catAmountE name rest := by
  simp [catAmountE]

theorem lookupCat_map_upd (name cname : String) (a : ℚ) (acc : List CategoryData) :
    lookupCat name
      (acc.map fun e => if e.name = cname then ⟨e.name, e.value + a, e.color⟩ else e) =
      (lookupCat name acc).map fun e =>
        if e.name = cname then ⟨e.name, e.value + a, e.color⟩ else e := by
  induction acc with
  | nil => rfl
  | cons e rest ih =>
    simp only [List.map_cons, lookupCat, List.find?_cons]
    by_cases hn : e.name = name
    · have h1 : ((if e.name = cname then (⟨e.name, e.value + a, e.color⟩ : CategoryData)
          else e).name == name) = true := by
        split_ifs <;> simpa using hn
      have h2 : (e.name == name) = true := by simpa using hn
      rw [h1, h2]
      rfl
    · have h1 : ((if e.name = cname then (⟨e.name, e.value + a, e.color⟩ : CategoryData)
          else e).name == name) = false := by
        split_ifs <;> simpa using hn
      have h2 : (e.name == name) = false := by simpa using hn
      rw [h1, h2]
      exact ih

theorem lookupCat_append_single (name : String) (acc : List CategoryData)
    (x : CategoryData) :
    lookupCat name (acc ++ [x]) =
      match lookupCat name acc with
      | some e => some e
      | none => if x.name == name then some x else none := by
  induction acc with
  | nil => simp [lookupCat]
  | cons e rest ih =>
    simp only [List.cons_append, lookupCat, List.find?_cons]
    by_cases hn : e.name = name
    · have h : (e.name == name) = true := by simpa using hn
      rw [h]
    · have h : (e.name == name) = false := by simpa using hn
      rw [h]
      exact ih

theorem lookupCat_name {name : String} {acc : List CategoryData} {e : CategoryData}
    (h : lookupCat name acc = some e) : e.name = name := by
  have := List.find?_some h
  simpa using this

theorem lookupCat_mem {name : String} {acc : List CategoryData} {e : CategoryData}
    (h : lookupCat name acc = some e) : e ∈ acc :=
  List.mem_of_find?_eq_some h

theorem lookupCat_catStep (name : String) (acc : List CategoryData) (t : Tx) :
    lookupCat name (catStep acc t) =
      if catNamed name t then
        match lookupCat name acc with
        | some e => some ⟨e.name, e.value + t.amount, e.color⟩
        | none => some ⟨catName t, t.amount, jsOr (colorOf t) (COLORS.getD 0 "")⟩
      else lookupCat name acc := by
  rcases ht : t.category with _ | c
  · simp [catStep, catNamed, ht]
  · by_cases hany : (acc.any fun e => e.name = c.name) = true
    · have hstep : catStep acc t =
          acc.map fun e =>
            if e.name = c.name then ⟨e.name, e.value + t.amount, e.color⟩ else e := by
        simp [catStep, ht, hany]
      rw [hstep, lookupCat_map_upd name c.name t.amount acc]
      by_cases hcn : c.name = name
      · have hval : catNamed name t = true := by simp [catNamed, ht, hcn]
        rw [if_pos hval]
        cases hl : lookupCat name acc with
        | some e =>
          have hename : e.name = name := lookupCat_name hl
          simp [hename, hcn]
        | none =>
          exfalso
          rw [List.any_eq_true] at hany
          obtain ⟨x, hx, hxn⟩ := hany
          have hxname : (fun e : CategoryData => e.name == name) x = true := by
            have hxn' : x.name = c.name := by simpa using hxn
            simp [hxn', hcn]
          exact (List.find?_eq_none.mp hl x hx) hxname
      · have hval : catNamed name t = false := by simp [catNamed, ht, hcn]
        rw [if_neg (by simp [hval])]
        cases hl : lookupCat name acc with
        | some e =>
          have hename : e.name = name := lookupCat_name hl
          have : ¬e.name = c.name := by
            rw [hename]
            exact fun hh => hcn hh.symm
          simp [this]
        | none => rfl
    · have hstep : catStep acc t =
          acc ++ [⟨c.name, t.amount, jsOr c.color (COLORS.getD 0 "")⟩] := by
        simp [catStep, ht, hany]
      rw [hstep, lookupCat_append_single]
      by_cases hcn : c.name = name
      · have hval : catNamed name t = true := by simp [catNamed, ht, hcn]
        rw [if_pos hval]
        cases hl : lookupCat name acc with
        | some e =>
          exfalso
          apply hany
          rw [List.any_eq_true]
          refine ⟨e, lookupCat_mem hl, ?hh⟩
          have hename : e.name = name := lookupCat_name hl
          simp [hename, hcn]
        | none =>
          simp [catName, colorOf, ht, hcn]
      · have hval : catNamed name t = false := by simp [catNamed, ht, hcn]
        rw [if_neg (show ¬(catNamed name t = true) by rw [hval]; exact Bool.false_ne_true)]
        cases hl : lookupCat name acc with
        | some e => rfl
        | none => simp [hcn]

theorem catFold_find (name : String) :
    ∀ (l : List Tx) (acc : List CategoryData),
      lookupCat name (l.foldl catStep acc) =
        match lookupCat name acc, l.find? (catNamed name) with
        | some e, _ => some ⟨e.name, e.value + catAmount name l, e.color⟩
        | none, some t =>
          some ⟨catName t, catAmount name l, jsOr (colorOf t) (COLORS.getD 0 "")⟩
        | none, none => none := by
  intro l
  induction l with
  | nil =>
    intro acc
    cases h : lookupCat name acc with
    | some e => simp [h, catAmount]
    | none => simp [h]
  | cons t rest ih =>
    intro acc
    rw [List.foldl_cons, ih (catStep acc t), lookupCat_catStep name acc t]
    by_cases hnt : catNamed name t = true
    · rw [if_pos hnt]
      have hfind : (t :: rest).find? (catNamed name) = some t :=
        List.find?_cons_of_pos rest hnt
      rw [hfind]
      cases hacc : lookupCat name acc with
      | some e => simp [catAmount_cons, hnt, add_assoc]
      | none => simp [catAmount_cons, hnt]
    · rw [if_neg hnt]
      have hb : catNamed name t = false := by
        revert hnt
        cases catNamed name t <;> simp
      have hfind : (t :: rest).find? (catNamed name) = rest.find? (catNamed name) :=
        List.find?_cons_of_neg rest hnt
      rw [hfind]
      cases hacc : lookupCat name acc with
      | some e => simp [catAmount_cons, hb]
      | none =>
        cases hf : rest.find? (catNamed name) with
        | some t2 => simp [catAmount_cons, hb]
        | none => rfl

theorem bool_eq_false {b : Bool} (h : ¬b = true) : b = false := by
  cases b
  · rfl
  · exact absurd rfl h

theorem find?_filter_bridge (name : String) :
    ∀ l : List Tx, (l.filter isExpCat).find? (catNamed name) = l.find? (expCatNamed name) := by
  intro l
  induction l with
  | nil => rfl
  | cons t rest ih =>
    by_cases hf : isExpCat t = true
    · rw [List.filter_cons, if_pos hf]
      by_cases hc : catNamed name t = true
      · have h1 : (t :: rest.filter isExpCat).find? (catNamed name) = some t :=
          List.find?_cons_of_pos _ hc
        have h2 : (t :: rest).find? (expCatNamed name) = some t :=
          List.find?_cons_of_pos _ (by rw [expCatNamed_eq, hf, hc]; rfl)
        rw [h1, h2]
      · have h1 : (t :: rest.filter isExpCat).find? (catNamed name) =
            (rest.filter isExpCat).find? (catNamed name) :=
          List.find?_cons_of_neg _ hc
        have h2 : (t :: rest).find? (expCatNamed name) = rest.find? (expCatNamed name) :=
          List.find?_cons_of_neg _
            (by rw [expCatNamed_eq, bool_eq_false hc, Bool.and_false]; exact Bool.false_ne_true)
        rw [h1, h2, ih]
    · rw [List.filter_cons, if_neg hf]
      have h2 : (t :: rest).find? (expCatNamed name) = rest.find? (expCatNamed name) :=
        List.find?_cons_of_neg _
          (by rw [expCatNamed_eq, bool_eq_false hf, Bool.false_and]; exact Bool.false_ne_true)
      rw [h2, ih]

theorem amount_filter_bridge (name : String) :
    ∀ l : List Tx, catAmount name (l.filter isExpCat) = catAmountE name l := by
  intro l
  induction l with
  | nil => rfl
  | cons t rest ih =>
    rw [catAmountE_cons]
    by_cases hf : isExpCat t = true
    · rw [List.filter_cons, if_pos hf, catAmount_cons, ih, expCatNamed_eq, hf, Bool.true_and]
    · rw [List.filter_cons, if_neg hf, ih, expCatNamed_eq, bool_eq_false hf, Bool.false_and]
      simp

theorem mem_catStep_names (acc : List CategoryData) (t : Tx) (e : CategoryData)
    (h : e ∈ catStep acc t) :
    e.name ∈ acc.map (fun x => x.name) ∨ catNamed e.name t = true := by
  rcases ht : t.category with _ | c
  · rw [catStep, ht] at h
    exact Or.inl (List.mem_map_of_mem _ h)
  · by_cases hany : (acc.any fun x => x.name = c.name) = true
    · have hstep : catStep acc t =
          acc.map fun x =>
            if x.name = c.name then ⟨x.name, x.value + t.amount, x.color⟩ else x := by
        simp [catStep, ht, hany]
      rw [hstep] at h
      obtain ⟨x, hx, hxe⟩ := List.mem_map.mp h
      left
      have hname : e.name = x.name := by
        rw [← hxe]
        split_ifs <;> rfl
      rw [hname]
      exact List.mem_map_of_mem _ hx
    · have hstep : catStep acc t =
          acc ++ [⟨c.name, t.amount, jsOr c.color (COLORS.getD 0 "")⟩] := by
        simp [catStep, ht, hany]
      rw [hstep, List.mem_append] at h
      rcases h with h | h
      · exact Or.inl (List.mem_map_of_mem _ h)
      · right
        have : e = ⟨c.name, t.amount, jsOr c.color (COLORS.getD 0 "")⟩ := by
          simpa using h
        rw [this, catNamed, ht]
        exact beq_self_eq_true c.name

theorem mem_fold_cat (l : List Tx) :
    ∀ (acc : List CategoryData) (e : CategoryData), e ∈ l.foldl catStep acc →
      e.name ∈ acc.map (fun x => x.name) ∨ ∃ t ∈ l, catNamed e.name t = true := by
  induction l with
  | nil =>
    intro acc e h
    exact Or.inl (List.mem_map_of_mem _ h)
  | cons t rest ih =>
    intro acc e h
    rw [List.foldl_cons] at h
    rcases ih (catStep acc t) e h with h1 | h1
    · obtain ⟨x, hx, hxe⟩ := List.mem_map.mp h1
      rcases mem_catStep_names acc t x hx with h2 | h2
      · exact Or.inl (hxe ▸ h2)
      · exact Or.inr ⟨t, List.mem_cons_self t rest, hxe ▸ h2⟩
    · obtain ⟨t2, ht2, hc⟩ := h1
      exact Or.inr ⟨t2, List.mem_cons_of_mem t ht2, hc⟩

theorem processCategory_complete (txs : List Tx) :
    ∀ e ∈ processCategoryData txs, ∃ t ∈ txs, expCatNamed e.name t = true := by
  intro e he
  rw [processCategoryData] at he
  rcases mem_fold_cat (txs.filter isExpCat) [] e he with h | h
  · simp at h
  · obtain ⟨t, htm, hc⟩ := h
    rw [List.mem_filter] at htm
    exact ⟨t, htm.1, by rw [expCatNamed_eq, htm.2, hc]; rfl⟩

/-- The property the amended C2 asserts of the category aggregation: the
bucket of every category name is determined by the expense transactions
carrying that name — absent when there are none, and otherwise holding their
summed amount and the first such transaction's color with the falsy-color
default applied; every bucket's name is carried by some expense transaction;
and income-type or category-less transactions contribute nothing. -/
def categorySpec (txs : List Tx) : Prop :=
  (∀ name : String,
    lookupCat name (processCategoryData txs) =
      match txs.find? (expCatNamed name) with
      | some t =>
        some ⟨catName t, catAmountE name txs, jsOr (colorOf t) (COLORS.getD 0 "")⟩
      | none => none) ∧
  (∀ e ∈ processCategoryData txs, ∃ t ∈ txs, expCatNamed e.name t = true) ∧
  (∀ t : Tx, isExpCat t = false →
    ∀ l1 l2 : List Tx, processCategoryData (l1 ++ t :: l2) = processCategoryData (l1 ++ l2))

/-- C2 (amended): the category aggregation includes exactly the expense-type
transactions with a non-null category, merges buckets by category name, sums
their amounts per name, and colors each bucket with the first-seen
transaction's color except that a falsy (empty) color is replaced by the
default palette color; income-type and category-less transactions contribute
nothing and produce no bucket. -/
theorem claim_C2_category_aggregation (txs : List Tx) : categorySpec txs := by
  refine ⟨?hlook, processCategory_complete txs, ?hinv⟩
  case hlook =>
    intro name
    rw [processCategoryData, catFold_find name (txs.filter isExpCat) [],
      find?_filter_bridge name txs, amount_filter_bridge name txs]
    cases h : txs.find? (expCatNamed name) with
    | some t => rfl
    | none => rfl
  case hinv =>
    intro t hf l1 l2
    rw [processCategoryData, processCategoryData, filter_middle_false isExpCat t hf]

/-- An expense transaction whose category color is the empty (falsy) string. -/
def badColorTx : Tx := ⟨"expense", 1, 24005, some ⟨"Food", ""⟩⟩

/-- C2 counterexample: the bucket built from a single expense transaction
whose category color is falsy gets the default palette color '#3B82F6', not
the first transaction's color (the empty string), refuting the claim that the
bucket is assigned the color of the first transaction seen for its name. -/
theorem claim_C2_category_aggregation_counterexample :
    colorOf badColorTx = "" ∧
    processCategoryData [badColorTx] = [⟨"Food", 1, "#3B82F6"⟩] ∧
    ("#3B82F6" : String) ≠ "" :=
  ⟨rfl, rfl, by decide⟩

theorem claim_C2_category_aggregation_witness : categorySpec [badColorTx, wOtherTx] :=
  claim_C2_category_aggregation [badColorTx, wOtherTx]

/-- A transaction row as the assistant's snapshot query returns it: type,
amount and a date (a totally ordered day stamp). -/
structure ATx where
  type : String
  amount : ℚ
  date : ℕ
deriving DecidableEq

/-- Model of the snapshot query from('transactions').select(...).limit(20):
the query requests no ordering, so the store returns its rows in its default
(storage) order and the limit keeps the first 20 of them. -/
def limitedTransactions (store : List ATx) : List ATx := store.take 20

/-- getFinancialContext of AIAssistant.tsx, over the wallet rows and the
transaction store. -/
def getFinancialContext (wallets : List Wallet) (store : List ATx) : FinCtx :=
  ⟨wallets.length,
   wallets.foldl (fun s w => s + w.balance) 0,
   ((limitedTransactions store).filter fun t => t.type == "income").foldl
     (fun s t => s + t.amount) 0,
   ((limitedTransactions store).filter fun t => t.type == "expense").foldl
     (fun s t => s + t.amount) 0,
   (limitedTransactions store).length⟩

/-- The first twenty rows of the failing store, in storage order: twenty old
income transactions with dates 1..20 and amount 1 each. -/
def cbFirst : List ATx :=
  [⟨"income", 1, 1⟩,
   ⟨"income", 1, 2⟩,
   ⟨"income", 1, 3⟩,
   ⟨"income", 1, 4⟩,
   ⟨"income", 1, 5⟩,
   ⟨"income", 1, 6⟩,
   ⟨"income", 1, 7⟩,
   ⟨"income", 1, 8⟩,
   ⟨"income", 1, 9⟩,
   ⟨"income", 1, 10⟩,
   ⟨"income", 1, 11⟩,
   ⟨"income", 1, 12⟩,
   ⟨"income", 1, 13⟩,
   ⟨"income", 1, 14⟩,
   ⟨"income", 1, 15⟩,
   ⟨"income", 1, 16⟩,
   ⟨"income", 1, 17⟩,
   ⟨"income", 1, 18⟩,
   ⟨"income", 1, 19⟩,
   ⟨"income", 1, 20⟩]

/-- The failing store: the twenty old rows followed by the newest row
(date 21, amount 100), stored last. Its twenty rows with the latest dates
are exactly those with date at least 2, whose income sums to 119. -/
def cbStore : List ATx := cbFirst ++ [⟨"income", 100, 21⟩]

/-- C7 (failing input): on a store of 21 income transactions whose newest row
is stored last, the snapshot computes its income over the first 20 stored
rows (sum 20), not over the 20 transactions with the latest dates (sum 119):
the query applies a row limit without any date ordering. -/
theorem claim_C7_snapshot_limit_unordered :
    cbStore.length = 21 ∧
    (cbStore.filter fun t => decide (2 ≤ t.date)).length = 20 ∧
    (∀ t ∈ cbStore, 2 ≤ t.date ∨ t.date = 1) ∧
    (getFinancialContext [] cbStore).recentIncome = 20 ∧
    ((cbStore.filter fun t => decide (2 ≤ t.date)).map fun t => t.amount).sum = 119 ∧
    (getFinancialContext [] cbStore).recentIncome ≠
      ((cbStore.filter fun t => decide (2 ≤ t.date)).map fun t => t.amount).sum := by
  have hfilter : (cbStore.filter fun t => decide (2 ≤ t.date)) =
      ([⟨"income", 1, 2⟩,
   ⟨"income", 1, 3⟩,
   ⟨"income", 1, 4⟩,
   ⟨"income", 1, 5⟩,
   ⟨"income", 1, 6⟩,
   ⟨"income", 1, 7⟩,
   ⟨"income", 1, 8⟩,
   ⟨"income", 1, 9⟩,
   ⟨"income", 1, 10⟩,
   ⟨"income", 1, 11⟩,
   ⟨"income", 1, 12⟩,
   ⟨"income", 1, 13⟩,
   ⟨"income", 1, 14⟩,
   ⟨"income", 1, 15⟩,
   ⟨"income", 1, 16⟩,
   ⟨"income", 1, 17⟩,
   ⟨"income", 1, 18⟩,
   ⟨"income", 1, 19⟩,
   ⟨"income", 1, 20⟩,
        ⟨"income", 100, 21⟩] : List ATx) := rfl
  have hlim : (limitedTransactions cbStore).filter (fun t => t.type == "income") =
      cbFirst := rfl
  have hinc : (getFinancialContext [] cbStore).recentIncome =
      cbFirst.foldl (fun s t => s + t.amount) 0 := by
    rw [getFinancialContext]
    rw [hlim]
  have hv1 : cbFirst.foldl (fun s t => s + t.amount) 0 = 20 := by
    simp only [cbFirst, List.foldl_cons, List.foldl_nil]
    norm_num
  have hv2 : ((cbStore.filter fun t => decide (2 ≤ t.date)).map fun t => t.amount).sum =
      119 := by
    rw [hfilter]
    simp only [List.map_cons, List.map_nil, List.sum_cons, List.sum_nil]
    norm_num
  refine ⟨rfl, rfl, by decide, ?hi, hv2, ?hne⟩
  case hi => rw [hinc, hv1]
  case hne =>
    rw [hinc, hv1, hv2]
    norm_num
